import Mathlib

/-
Shallow embedding of ProjectSidewalk/sidewalk-auto-labeler.

Sources embedded:
  src/main.py            (run_labeler processing loop, process_pano, get_geojson_hash)
  src/panorama.py        (Panorama: _fetch_tile, _find_panorama_dimensions,
                          _fetch_remaining_tiles, _assemble_panorama, _crop,
                          _fetch_panorama)
  src/detectors/curb_ramp.py (CurbRampDetector.detect post-processing)
  src/send_to_ps.py      (downstream forwarder, interface only)

Conventions: machine images are modelled as total pixel functions with explicit
width/height bounds; the value 0 encodes a black (all channel zero) pixel.
Network calls are modelled by an explicit server function; exceptions and
non-200 HTTP statuses are folded into one error response, exactly as the
Python code treats them (both fall through the same way in _fetch_tile).
Loops whose termination depends on server answers take an explicit fuel
argument; theorems hold for every sufficiently large fuel.
-/

namespace Sidewalk

/-! ## Orchestrator results (src/main.py, process_pano and run_labeler) -/

/-- Status values of the dictionaries returned by process_pano
(src/main.py lines 73, 78, 87, 95). -/
inductive Status where
  | success
  | failure
  | skipped
deriving DecidableEq, Repr

/-- The part of a process_pano result that the run_labeler loop inspects:
the status string and the panorama id (src/main.py lines 175-216). -/
structure PanoResult where
  status : Status
  pano_id : String
deriving DecidableEq, Repr

/-- File-system effects of one iteration of the run_labeler result loop:
writes and flushes on the output JSONL file and on the ledger (cache) file. -/
inductive Event where
  | writeOutput (pano_id : String)
  | flushOutput
  | appendLedger (pano_id : String)
  | flushLedger
deriving DecidableEq, Repr

/-- Events emitted while handling one result (src/main.py lines 176-215):
on success the loop writes one JSONL line, flushes it, appends the id to the
cache file and flushes that, in this exact order; every other status only
prints and counts, touching neither file. -/
def resultEvents (r : PanoResult) : List Event :=
  if r.status = Status.success then
    [Event.writeOutput r.pano_id, Event.flushOutput,
     Event.appendLedger r.pano_id, Event.flushLedger]
  else []

/-- The full file-event trace of the run_labeler processing loop over a list
of results, in completion order (src/main.py lines 175-216). -/
def runTrace (results : List PanoResult) : List Event :=
  results.foldr (fun r acc => resultEvents r ++ acc) []

/-- The ids appended to the ledger (cache) file, in order. -/
def ledgerIds (results : List PanoResult) : List String :=
  (runTrace results).filterMap fun e =>
    match e with
    | Event.appendLedger i => some i
    | _ => none

/-- The ids whose output record line was written to the JSONL file, in order. -/
def outputIds (results : List PanoResult) : List String :=
  (runTrace results).filterMap fun e =>
    match e with
    | Event.writeOutput i => some i
    | _ => none

/-- One step of the success/failure tally (src/main.py lines 161, 212, 215):
success_count increments on a success result, fail_count on anything else. -/
def tallyStep (c : Nat × Nat) (r : PanoResult) : Nat × Nat :=
  if r.status = Status.success then (c.1 + 1, c.2) else (c.1, c.2 + 1)

/-- The final (success_count, fail_count) pair printed by the final report
(src/main.py lines 218-222); these are the only two counters the loop keeps. -/
def finalTally (results : List PanoResult) : Nat × Nat :=
  results.foldl tallyStep (0, 0)

/-- The fixed indoor-capture source set (src/main.py line 72). -/
def indoorSources : List String :=
  ["innerspace", "cultural_institute", "photos:legacy_innerspace"]

/-- The slice of panorama metadata that process_pano consults before
assembling (src/main.py lines 71-73). -/
structure PanoMetadata where
  source : String

/-! ## Panorama assembly (src/panorama.py) -/

/-- A raster tile: square, with a total pixel function; 0 encodes a black
(all channel zero) pixel, any other value a non-black pixel. -/
structure RasterTile where
  size : Nat
  pix : Nat → Nat → Nat

/-- Blackness test of _is_black_tile for an actual tile image
(src/panorama.py lines 18-19): every pixel is zero. -/
def RasterTile.isBlack (t : RasterTile) : Bool :=
  decide (∀ x < t.size, ∀ y < t.size, t.pix x y = 0)

/-- Blackness test including the None case (src/panorama.py lines 15-17):
_is_black_tile(None) is True. -/
def isBlackOpt : Option RasterTile → Bool
  | none => true
  | some t => t.isBlack

/-- Outcome of one HTTP tile request: a 200 response carrying a decodable
image, or anything else (non-200 status or an exception, which _fetch_tile
treats identically by falling through without returning). -/
inductive TileResp where
  | ok (t : RasterTile)
  | err

/-- The tile server: maps (x, y, zoom) to a response. The panorama id is
fixed per assembly and therefore left implicit. -/
abbrev Server := Nat → Nat → Nat → TileResp

/-- Result of one _fetch_tile call: the updated self.zoom field, the
returned tile (third component of the Python return tuple) and the list of
HTTP requests the call issued, each as (x, y, zoom). -/
structure FetchOut where
  zoom : Option Nat
  tile : Option RasterTile
  reqs : List (Nat × Nat × Nat)

/-- The fallback request at zoom 3 (src/panorama.py lines 40-54): on a 200
response the tile is returned and self.zoom is set to 3 unconditionally (no
blackness check); otherwise self.zoom is left unchanged and None is
returned. -/
def fetchTileFallback (srv : Server) (z0 : Option Nat) (x y : Nat) : FetchOut :=
  match srv x y 3 with
  | TileResp.ok t => ⟨some 3, some t, [(x, y, 3)]⟩
  | TileResp.err => ⟨z0, none, [(x, y, 3)]⟩

/-- Panorama._fetch_tile (src/panorama.py lines 21-56). If self.zoom is
already set it overrides the requested zoom (line 22-23). A 200 response is
returned when self.zoom is set or the tile is non-black (line 34-36),
fixing self.zoom. Otherwise, only while self.zoom is still unset, one
fallback request at zoom 3 is made (lines 40-54). -/
def fetchTile (srv : Server) (z0 : Option Nat) (x y : Nat) : FetchOut :=
  let zoom := z0.getD 4
  match srv x y zoom with
  | TileResp.ok t =>
    if z0.isSome || !t.isBlack then ⟨some zoom, some t, [(x, y, zoom)]⟩
    else
      let fb := fetchTileFallback srv z0 x y
      ⟨fb.zoom, fb.tile, (x, y, zoom) :: fb.reqs⟩
  | TileResp.err =>
    if z0.isSome then ⟨z0, none, [(x, y, zoom)]⟩
    else
      let fb := fetchTileFallback srv z0 x y
      ⟨fb.zoom, fb.tile, (x, y, zoom) :: fb.reqs⟩

/-- The tiles_cache dictionary: an insertion-ordered association list from
grid coordinates to stored tile values (the inner discovery loop can store
a None value, src/panorama.py line 81). -/
abbrev TileCache := List ((Nat × Nat) × Option RasterTile)

/-- Python dict assignment: overwrite in place when the key exists,
otherwise append preserving insertion order. -/
def dictInsert (c : TileCache) (k : Nat × Nat) (v : Option RasterTile) : TileCache :=
  if c.any (fun p => p.1 = k) then
    c.map (fun p => if p.1 = k then (k, v) else p)
  else c ++ [(k, v)]

/-- Mutable state threaded through discovery: the Panorama object's
self.zoom, the tiles_cache, the coordinates passed to _fetch_tile (probes,
one per call) and every HTTP request issued. -/
structure DiscoState where
  zoom : Option Nat
  cache : TileCache
  probes : List (Nat × Nat)
  reqs : List (Nat × Nat × Nat)

/-- Outcome of _find_panorama_dimensions: fuel exhaustion (the Python loops
would still be running), the Python None return (invalid panorama), or the
returned (max_x, max_y) pair; the cache lives in the state. -/
inductive DiscoResult where
  | fuelOut
  | invalid
  | found (maxX maxY : Nat)
deriving DecidableEq, Repr

/-- The inner column sweep of _find_panorama_dimensions (src/panorama.py
lines 79-86): fetch, store into the cache, and on a black-or-None tile
return (x - 1, y); otherwise advance x. -/
def innerSweep (srv : Server) : Nat → DiscoState → Nat → Nat → DiscoState × DiscoResult
  | 0, st, _, _ => (st, DiscoResult.fuelOut)
  | fuel + 1, st, x, y =>
    let fo := fetchTile srv st.zoom x y
    let st1 : DiscoState :=
      ⟨fo.zoom, dictInsert st.cache (x, y) fo.tile,
       st.probes ++ [(x, y)], st.reqs ++ fo.reqs⟩
    if isBlackOpt fo.tile then (st1, DiscoResult.found (x - 1) y)
    else innerSweep srv fuel st1 (x + 1) y

/-- The outer diagonal walk of _find_panorama_dimensions (src/panorama.py
lines 58-89): starting from the seed, return invalid on a None tile or a
black first tile, cache the tile, and on a black tile hand over to the
inner sweep one row up; otherwise step diagonally. -/
def diagWalk (srv : Server) : Nat → DiscoState → Nat → Nat → Bool → DiscoState × DiscoResult
  | 0, st, _, _, _ => (st, DiscoResult.fuelOut)
  | fuel + 1, st, x, y, is_first =>
    let fo := fetchTile srv st.zoom x y
    let st0 : DiscoState := ⟨fo.zoom, st.cache, st.probes ++ [(x, y)], st.reqs ++ fo.reqs⟩
    match fo.tile with
    | none => (st0, DiscoResult.invalid)
    | some t =>
      if is_first && t.isBlack then (st0, DiscoResult.invalid)
      else
        let st1 : DiscoState := { st0 with cache := dictInsert st0.cache (x, y) (some t) }
        if t.isBlack then innerSweep srv fuel st1 x (y - 1)
        else diagWalk srv fuel st1 (x + 1) (y + 1) false

/-- Panorama._find_panorama_dimensions (src/panorama.py lines 58-89),
started at the fixed seed coordinate (5, 2) with an empty cache and the
first-iteration flag set. -/
def findPanoramaDimensions (srv : Server) (fuel : Nat) : DiscoState × DiscoResult :=
  diagWalk srv fuel ⟨none, [], [], []⟩ 5 2 true

/-- The grid cells enumerated by _fetch_remaining_tiles (src/panorama.py
lines 96-97): all (x, y) with x in range(max_x + 1), y in range(max_y + 1),
in submission order. -/
def gridCells (max_x max_y : Nat) : List (Nat × Nat) :=
  (List.range (max_x + 1)).flatMap fun x =>
    (List.range (max_y + 1)).map fun y => (x, y)

/-- Panorama._fetch_remaining_tiles (src/panorama.py lines 91-106): every
grid cell not already in the cache is fetched (self.zoom is fixed at z by
now, so each fetch issues one request at z and leaves the state unchanged);
a fetch returning None is dropped, any other tile is added. Returns the
completed cache together with the list of cells submitted to the pool.
The as_completed completion order only permutes dictionary insertion order;
we model the deterministic submission order. This is the loop body,
recursing over the pending cells with the cache and the submitted-cell
accumulator. -/
def fetchRemainingGo (srv : Server) (z : Option Nat) :
    List (Nat × Nat) → TileCache → List (Nat × Nat) → TileCache × List (Nat × Nat)
  | [], acc, ps => (acc, ps)
  | c :: cs, acc, ps =>
    if acc.any (fun p => p.1 = c) then fetchRemainingGo srv z cs acc ps
    else
      match (fetchTile srv z c.1 c.2).tile with
      | some t => fetchRemainingGo srv z cs (acc ++ [(c, some t)]) (ps ++ [c])
      | none => fetchRemainingGo srv z cs acc (ps ++ [c])

/-- Panorama._fetch_remaining_tiles proper: run the loop over the full
grid starting from the discovery cache. -/
def fetchRemainingTiles (srv : Server) (z : Option Nat) (max_x max_y : Nat)
    (existing : TileCache) : TileCache × List (Nat × Nat) :=
  fetchRemainingGo srv z (gridCells max_x max_y) existing []

/-- An image raster: width, height and a total pixel function (reads
outside the bounds are never observed); 0 encodes a black pixel. -/
structure Img where
  width : Nat
  height : Nat
  pix : Nat → Nat → Nat

/-- PIL Image.paste of a square tile at offset (ox, oy)
(src/panorama.py line 113); pixels outside the tile rectangle keep their
previous value, and writes past the canvas bounds are silently clipped
(they fall outside the observable region). -/
def pasteTile (canvas : Img) (t : RasterTile) (ox oy : Nat) : Img :=
  ⟨canvas.width, canvas.height, fun px py =>
    if ox ≤ px ∧ px < ox + t.size ∧ oy ≤ py ∧ py < oy + t.size then
      t.pix (px - ox) (py - oy)
    else canvas.pix px py⟩

/-- The paste loop of _assemble_panorama (src/panorama.py lines 112-113):
paste every cached tile at its grid offset in tile-size units. -/
def pasteAll (ts : Nat) : TileCache → Img → Img
  | [], cv => cv
  | p :: rest, cv =>
    match p.2 with
    | some t => pasteAll ts rest (pasteTile cv t (p.1.1 * ts) (p.1.2 * ts))
    | none => pasteAll ts rest cv

/-- Panorama._assemble_panorama (src/panorama.py lines 108-115): the tile
size is read from the first dictionary value (an IndexError on an empty
dictionary and an AttributeError on a None first value, both modelled as
none), a black canvas of tile_size*(max_x+1) by tile_size*(max_y+1) is
allocated, and every cached tile is pasted at its grid offset (pasting a
None value raises in PIL, also modelled as none). -/
def assemblePanorama (tiles : TileCache) (max_x max_y : Nat) : Option Img :=
  match tiles with
  | [] => none
  | (_, none) :: _ => none
  | (_, some t0) :: _ =>
    if tiles.any (fun p => p.2.isNone) then none
    else
      some (pasteAll t0.size tiles
        ⟨t0.size * (max_x + 1), t0.size * (max_y + 1), fun _ _ => 0⟩)

/-- The row indices holding at least one nonzero pixel, ascending
(the y_nonzero of np.nonzero, src/panorama.py line 118). -/
def nonzeroRows (img : Img) : List Nat :=
  (List.range img.height).filter fun y =>
    (List.range img.width).any fun x => img.pix x y ≠ 0

/-- The column indices holding at least one nonzero pixel, ascending
(the x_nonzero of np.nonzero, src/panorama.py line 118). -/
def nonzeroCols (img : Img) : List Nat :=
  (List.range img.width).filter fun x =>
    (List.range img.height).any fun y => img.pix x y ≠ 0

/-- Panorama._crop (src/panorama.py lines 117-119): numpy slicing
image[min_y:max_y, min_x:max_x] over the nonzero bounds — the upper bounds
are exclusive, so the last nonzero row and column are dropped. On an
all-zero image np.min raises a ValueError, modelled as none. No aspect
handling of any kind is performed here. -/
def crop (img : Img) : Option Img :=
  let rows := nonzeroRows img
  let cols := nonzeroCols img
  match rows.head?, rows.getLast?, cols.head?, cols.getLast? with
  | some y0, some y1, some x0, some x1 =>
    some ⟨x1 - x0, y1 - y0, fun x y => img.pix (x0 + x) (y0 + y)⟩
  | _, _, _, _ => none

/-- cv2.resize to exactly w by h (src/panorama.py lines 130-131). cv2
interpolates bilinearly over real-valued sample positions; the claims under
verification depend only on the output dimensions, so the resample is
modelled by nearest source sample while the dimensions are exact. -/
def resizeImg (img : Img) (w h : Nat) : Img :=
  ⟨w, h, fun x y => img.pix (x * img.width / w) (y * img.height / h)⟩

/-- Everything observable about one full assembly: the final image (None
both on an invalid panorama and on a propagated exception), the coordinates
probed, and the final self.zoom. -/
structure AssemblyOut where
  image : Option Img
  probes : List (Nat × Nat)
  zoom : Option Nat

/-- Panorama._fetch_panorama (src/panorama.py lines 121-131): run
discovery; on a None result leave the image None; otherwise bulk-fetch the
remaining grid cells, assemble, crop, and resize to the fixed (8192, 4096).
cv2.cvtColor only permutes channels and is the identity on our
single-value pixel encoding. -/
def fetchPanorama (srv : Server) (fuel : Nat) : AssemblyOut :=
  let d := findPanoramaDimensions srv fuel
  match d.2 with
  | DiscoResult.found mx my =>
    let rem := fetchRemainingTiles srv d.1.zoom mx my d.1.cache
    let img :=
      match assemblePanorama rem.1 mx my with
      | some canvas => (crop canvas).map fun c => resizeImg c 8192 4096
      | none => none
    ⟨img, d.1.probes ++ rem.2, d.1.zoom⟩
  | _ => ⟨none, d.1.probes, d.1.zoom⟩

/-- What one process_pano call does (src/main.py lines 64-95): a missing
metadata record or an indoor source returns the skipped status before any
tile fetch; a None image is a failure; otherwise detection runs and the
call succeeds. The probes field lists every tile coordinate fetched. -/
structure ProcessOutcome where
  status : Status
  probes : List (Nat × Nat)

/-- process_pano (src/main.py lines 64-95) restricted to its control flow:
metadata check, then image fetch, then detection. -/
def processPano (md : Option PanoMetadata) (srv : Server) (fuel : Nat) : ProcessOutcome :=
  match md with
  | none => ⟨Status.skipped, []⟩
  | some m =>
    if m.source ∈ indoorSources then ⟨Status.skipped, []⟩
    else
      let a := fetchPanorama srv fuel
      match a.image with
      | none => ⟨Status.failure, a.probes⟩
      | some _ => ⟨Status.success, a.probes⟩

/-- A sequence of _fetch_tile calls on one Panorama object threading
self.zoom, accumulating every HTTP request issued (used to state the
zoom-stability invariant across an assembly). -/
def fetchSeq (srv : Server) : Option Nat → List (Nat × Nat) → Option Nat × List (Nat × Nat × Nat)
  | z0, [] => (z0, [])
  | z0, c :: cs =>
    let fo := fetchTile srv z0 c.1 c.2
    let rest := fetchSeq srv fo.zoom cs
    (rest.1, fo.reqs ++ rest.2)

/-! ## Detector post-processing (src/detectors/curb_ramp.py) -/

/-- CurbRampDetector.detect post-processing (src/detectors/curb_ramp.py
lines 26-32): peak_local_max yields integer (row, column) heatmap indices;
the returned coordinates are the pairs (float(c), float(r)) — heatmap pixel
positions, swapped to (column, row), with no confidence component and no
normalization (the scale_w/scale_h factors are computed but unused, and the
scaling line is commented out). Integer-valued floats are modelled as Nat. -/
def detectCoordinates (peaks : List (Nat × Nat)) : List (Nat × Nat) :=
  peaks.map fun rc => (rc.2, rc.1)

/-- The detector preprocessing resize (src/detectors/curb_ramp.py line 16):
transforms.Resize((2048, 4096)) takes (height, width), so the model input
is always 4096 wide and 2048 high. -/
def detectPreprocess (img : Img) : Img :=
  resizeImg img 4096 2048

/-! ## Area digest canonicalization (src/main.py, get_geojson_hash) -/

/-- Parsed JSON values as produced by geojson.load / json.loads. Python
dicts are insertion-ordered association lists; a parsed dict has no
duplicate keys. Numeric literals are carried by the repr string Python
float/int serialization produces for them — two equal parsed numbers carry
the same repr. -/
inductive Json where
  | null
  | bool (b : Bool)
  | num (lit : String)
  | str (s : String)
  | arr (elems : List Json)
  | obj (members : List (String × Json))

/-- Hexadecimal digit for json.dumps escape sequences. -/
def hexDigit (n : Nat) : Char :=
  if n < 10 then Char.ofNat (48 + n) else Char.ofNat (87 + (n % 16))

/-- Four-digit lowercase hexadecimal, as in a JSON escape. -/
def hex4 (n : Nat) : String :=
  String.mk [hexDigit (n / 4096 % 16), hexDigit (n / 256 % 16),
             hexDigit (n / 16 % 16), hexDigit (n % 16)]

/-- json.dumps escaping of one character with the default ensure_ascii:
the two-character escapes for quote, backslash and common controls, other
controls and all non-ASCII as backslash-u sequences (surrogate pairs above
the basic plane), everything else verbatim. -/
def escapeChar (c : Char) : String :=
  if c = '"' then "\\\""
  else if c = '\\' then "\\\\"
  else if c = '\n' then "\\n"
  else if c = '\t' then "\\t"
  else if c = '\r' then "\\r"
  else if c.toNat = 8 then "\\b"
  else if c.toNat = 12 then "\\f"
  else if c.toNat < 32 then "\\u" ++ hex4 c.toNat
  else if c.toNat < 127 then String.mk [c]
  else if c.toNat < 65536 then "\\u" ++ hex4 c.toNat
  else
    "\\u" ++ hex4 (55296 + (c.toNat - 65536) / 1024) ++
    "\\u" ++ hex4 (56320 + (c.toNat - 65536) % 1024)

/-- json.dumps serialization of a string value. -/
def dumpString (s : String) : String :=
  "\"" ++ String.join (s.toList.map escapeChar) ++ "\""

/-- The item separator of separators=(',', ':') in get_geojson_hash
(src/main.py line 41). -/
def joinComma (l : List String) : String :=
  String.intercalate "," l

/-- Key comparison used by sort_keys=True: Python sorts dictionary items by
their string key. -/
def keyLE (a b : String × String) : Bool :=
  decide (a.1 ≤ b.1)

/-- One serialized object member, key and serialized value joined by the
':' of separators=(',', ':'). -/
def memberString (kv : String × String) : String :=
  dumpString kv.1 ++ ":" ++ kv.2

mutual

/-- json.dumps(geometry, sort_keys=True, separators=(',', ':')) as called
by get_geojson_hash (src/main.py line 41): compact separators, keys sorted.
Members are serialized and then sorted by key; since the sort compares keys
only and is stable, this equals Python's sort-then-serialize order. -/
def jsonDumps : Json → String
  | Json.null => "null"
  | Json.bool true => "true"
  | Json.bool false => "false"
  | Json.num lit => lit
  | Json.str s => dumpString s
  | Json.arr l => "[" ++ joinComma (jsonListDumps l) ++ "]"
  | Json.obj m =>
    "\x7b" ++ joinComma ((List.mergeSort (jsonMembersDumps m) keyLE).map memberString) ++ "\x7d"

/-- Serialization of the elements of a JSON array, in order. -/
def jsonListDumps : List Json → List String
  | [] => []
  | j :: t => jsonDumps j :: jsonListDumps t

/-- Serialization of object members to (key, serialized value) pairs, in
insertion order. -/
def jsonMembersDumps : List (String × Json) → List (String × String)
  | [] => []
  | (k, v) :: t => (k, jsonDumps v) :: jsonMembersDumps t

end

/-- get_geojson_hash (src/main.py lines 37-43): the SHA-256 hex digest of
the canonical serialization. The digest function itself is an external
primitive; it enters the claims only through being applied to the
canonical string, so the development quantifies over it — any conclusion
holds for SHA-256 in particular. -/
def getGeojsonHash (sha256hex : String → String) (g : Json) : String :=
  sha256hex (jsonDumps g)

mutual

/-- Equality of two parsed JSON values as Python objects: dicts compare as
unordered key-to-value maps, so members may appear in any order, while
arrays compare pointwise. -/
inductive JsonEquiv : Json → Json → Prop where
  | null : JsonEquiv Json.null Json.null
  | bool (b : Bool) : JsonEquiv (Json.bool b) (Json.bool b)
  | num (lit : String) : JsonEquiv (Json.num lit) (Json.num lit)
  | str (s : String) : JsonEquiv (Json.str s) (Json.str s)
  | arr (l1 l2 : List Json) : JsonListEquiv l1 l2 → JsonEquiv (Json.arr l1) (Json.arr l2)
  | obj (m1 mid m2 : List (String × Json)) :
      JsonMembersEquiv m1 mid → List.Perm mid m2 →
      JsonEquiv (Json.obj m1) (Json.obj m2)

/-- Pointwise equality of array elements. -/
inductive JsonListEquiv : List Json → List Json → Prop where
  | nil : JsonListEquiv [] []
  | cons (a b : Json) (l1 l2 : List Json) :
      JsonEquiv a b → JsonListEquiv l1 l2 → JsonListEquiv (a :: l1) (b :: l2)

/-- Pointwise equality of object members before reordering: same key,
equal value. -/
inductive JsonMembersEquiv : List (String × Json) → List (String × Json) → Prop where
  | nil : JsonMembersEquiv [] []
  | cons (k : String) (v1 v2 : Json) (m1 m2 : List (String × Json)) :
      JsonEquiv v1 v2 → JsonMembersEquiv m1 m2 →
      JsonMembersEquiv ((k, v1) :: m1) ((k, v2) :: m2)

end

mutual

/-- Well-formedness of a parsed JSON value: no object level carries a
duplicate key (json.loads keeps the last duplicate, so parsed values
satisfy this). -/
def jsonWF : Json → Bool
  | Json.null => true
  | Json.bool _ => true
  | Json.num _ => true
  | Json.str _ => true
  | Json.arr l => jsonListWF l
  | Json.obj m => decide (m.map Prod.fst).Nodup && jsonMembersWF m

/-- Well-formedness of every element of an array. -/
def jsonListWF : List Json → Bool
  | [] => true
  | j :: t => jsonWF j && jsonListWF t

/-- Well-formedness of every member value of an object. -/
def jsonMembersWF : List (String × Json) → Bool
  | [] => true
  | (_, v) :: t => jsonWF v && jsonMembersWF t

end

/-! ## Concrete instances used to evaluate the embedding -/

/-- A populated 1-by-1 tile (every pixel nonzero). -/
def popTile : RasterTile := ⟨1, fun _ _ => 1⟩

/-- The all-zero sentinel tile. -/
def zeroTile : RasterTile := ⟨1, fun _ _ => 0⟩

/-- The synthetic tile source of the discovery property: sentinel exactly
when the column exceeds Xmax or the row exceeds Ymax, populated otherwise,
at every zoom, never erroring. -/
def synthServer (Xmax Ymax : Nat) : Server :=
  fun x y _ => TileResp.ok (if Xmax < x ∨ Ymax < y then zeroTile else popTile)

/-- A server on which every request fails. -/
def errServer : Server := fun _ _ _ => TileResp.err

/-- A server that always serves the populated tile. -/
def okServer : Server := fun _ _ _ => TileResp.ok popTile

/-- A server that always serves the sentinel tile. -/
def blackServer : Server := fun _ _ _ => TileResp.ok zeroTile

/-- A server that fails only at cell (1, 1): one tolerated bulk-fetch
failure. -/
def failServer : Server :=
  fun x y _ => if x = 1 ∧ y = 1 then TileResp.err else TileResp.ok popTile

/-- A 10 by 3 all-nonzero canvas, wider than twice its height. -/
def wideImg : Img := ⟨10, 3, fun _ _ => 1⟩

/-! ## Lemmas about the processing loop trace -/

theorem runTrace_cons (r : PanoResult) (rs : List PanoResult) :
    runTrace (r :: rs) = resultEvents r ++ runTrace rs := rfl

theorem ledgerIds_cons (r : PanoResult) (rs : List PanoResult) :
    ledgerIds (r :: rs) =
      (if r.status = Status.success then [r.pano_id] else []) ++ ledgerIds rs := by
  by_cases h : r.status = Status.success
  · simp [ledgerIds, runTrace_cons, resultEvents, h]
  · simp [ledgerIds, runTrace_cons, resultEvents, h]

theorem outputIds_cons (r : PanoResult) (rs : List PanoResult) :
    outputIds (r :: rs) =
      (if r.status = Status.success then [r.pano_id] else []) ++ outputIds rs := by
  by_cases h : r.status = Status.success
  · simp [outputIds, runTrace_cons, resultEvents, h]
  · simp [outputIds, runTrace_cons, resultEvents, h]

theorem mem_ledgerIds (results : List PanoResult) (id : String) :
    id ∈ ledgerIds results ↔
      ∃ r, r ∈ results ∧ r.status = Status.success ∧ r.pano_id = id := by
  induction results with
  | nil => simp [ledgerIds, runTrace]
  | cons r rs ih =>
    rw [ledgerIds_cons]
    by_cases h : r.status = Status.success
    · simp [h, ih]
      aesop
    · simp [h, ih]

theorem mem_outputIds (results : List PanoResult) (id : String) :
    id ∈ outputIds results ↔
      ∃ r, r ∈ results ∧ r.status = Status.success ∧ r.pano_id = id := by
  induction results with
  | nil => simp [outputIds, runTrace]
  | cons r rs ih =>
    rw [outputIds_cons]
    by_cases h : r.status = Status.success
    · simp [h, ih]
      aesop
    · simp [h, ih]

theorem runTrace_ledger_decomp (results : List PanoResult) (id : String) :
    ∀ pre post, runTrace results = pre ++ Event.appendLedger id :: post →
      ∃ q, pre = q ++ [Event.writeOutput id, Event.flushOutput] := by
  induction results with
  | nil => intro pre post h; simp [runTrace] at h
  | cons r rs ih =>
    intro pre post h
    rw [runTrace_cons] at h
    by_cases hs : r.status = Status.success
    · rw [resultEvents, if_pos hs] at h
      rcases pre with _ | ⟨e0, _ | ⟨e1, _ | ⟨e2, _ | ⟨e3, pre4⟩⟩⟩⟩
      · simp at h
      · simp [List.cons.injEq] at h
      · simp only [List.cons_append, List.nil_append, List.cons.injEq] at h
        obtain ⟨h0, h1, h2, _⟩ := h
        have hid : r.pano_id = id := by
          cases h2
          rfl
        exact ⟨[], by simp [← h0, ← h1, hid]⟩
      · simp [List.cons.injEq] at h
      · simp only [List.cons_append, List.nil_append, List.cons.injEq] at h
        obtain ⟨h0, h1, h2, h3, h4⟩ := h
        obtain ⟨q, hq⟩ := ih pre4 post h4
        exact ⟨e0 :: e1 :: e2 :: e3 :: q, by simp [hq]⟩
    · rw [resultEvents, if_neg hs] at h
      simp only [List.nil_append] at h
      exact ih pre post h

/-- C1: in the run_labeler processing loop, an id enters the ledger (cache
file) if and only if a success result for that id had its output record
written; the JSONL write and flush happen strictly before the ledger
append; and ledger appends happen only for success results — never for
skipped or failed ones. -/
theorem c1_ledger_iff_durable_output (results : List PanoResult) (id : String) :
    (id ∈ ledgerIds results ↔
      ∃ r, r ∈ results ∧ r.status = Status.success ∧ r.pano_id = id) ∧
    (id ∈ ledgerIds results ↔ id ∈ outputIds results) ∧
    (∀ pre post, runTrace results = pre ++ Event.appendLedger id :: post →
      pre.drop (pre.length - 2) = [Event.writeOutput id, Event.flushOutput]) := by
  refine ⟨mem_ledgerIds results id, ?_, ?_⟩
  · rw [mem_ledgerIds, mem_outputIds]
  · intro pre post h
    obtain ⟨q, hq⟩ := runTrace_ledger_decomp results id pre post h
    subst hq
    simp

/-- Witness for C1 at a concrete one-result run. -/
theorem c1_witness :
    runTrace [PanoResult.mk Status.success "a"] =
      [Event.writeOutput "a", Event.flushOutput] ++
        Event.appendLedger "a" :: [Event.flushLedger] ∧
    List.drop
        (([Event.writeOutput "a", Event.flushOutput] : List Event).length - 2)
        [Event.writeOutput "a", Event.flushOutput] =
      [Event.writeOutput "a", Event.flushOutput] :=
  ⟨rfl,
   (c1_ledger_iff_durable_output [PanoResult.mk Status.success "a"] "a").2.2
     [Event.writeOutput "a", Event.flushOutput] [Event.flushLedger] rfl⟩

/-! ## The tally and the indoor skip (claim C8) -/

theorem finalTally_go (results : List PanoResult) (a b : Nat) :
    results.foldl tallyStep (a, b) =
      (a + results.countP (fun r => decide (r.status = Status.success)),
       b + results.countP (fun r => !decide (r.status = Status.success))) := by
  induction results generalizing a b with
  | nil => simp
  | cons r rs ih =>
    simp only [List.foldl_cons, tallyStep]
    by_cases h : r.status = Status.success <;>
      simp [h, ih, List.countP_cons] <;> omega

/-- C8 counterexample: one skipped result makes the final tally (0, 1) —
the skip is counted in the failure counter, and the loop keeps no other
counter, contradicting a tally that reports skips separately from
failures. -/
theorem c8_counterexample :
    finalTally [PanoResult.mk Status.skipped "p1"] = (0, 1) := by decide

/-- C8 amended: an indoor-source panorama is skipped before any tile fetch
and writes neither an output record nor a ledger entry, but the final tally
counts every non-success result — skips included — in the single failure
counter, and only the success and failure counters exist. -/
theorem c8_indoor_skip_amended (m : PanoMetadata) (srv : Server) (fuel : Nat)
    (results : List PanoResult)
    (hm : m.source ∈ indoorSources) :
    processPano (some m) srv fuel = ⟨Status.skipped, []⟩ ∧
    (∀ r ∈ results, r.status = Status.skipped → resultEvents r = []) ∧
    finalTally results =
      (results.countP (fun r => decide (r.status = Status.success)),
       results.countP (fun r => !decide (r.status = Status.success))) := by
  refine ⟨?_, ?_, ?_⟩
  · simp [processPano, hm]
  · intro r _ hr
    simp [resultEvents, hr]
  · simpa using finalTally_go results 0 0

/-- Witness for C8 at a concrete indoor metadata record and result list. -/
theorem c8_witness :
    (PanoMetadata.mk "innerspace").source ∈ indoorSources ∧
    processPano (some (PanoMetadata.mk "innerspace")) errServer 0 =
      ⟨Status.skipped, []⟩ ∧
    finalTally [PanoResult.mk Status.skipped "p2"] =
      ([PanoResult.mk Status.skipped "p2"].countP
         (fun r => decide (r.status = Status.success)),
       [PanoResult.mk Status.skipped "p2"].countP
         (fun r => !decide (r.status = Status.success))) :=
  ⟨by decide,
   (c8_indoor_skip_amended ⟨"innerspace"⟩ errServer 0
     [PanoResult.mk Status.skipped "p2"] (by decide)).1,
   (c8_indoor_skip_amended ⟨"innerspace"⟩ errServer 0
     [PanoResult.mk Status.skipped "p2"] (by decide)).2.2⟩

/-! ## Detector output (claim C7) -/

/-- C7 (code evaluation): the detect post-processing maps the heatmap peak
at (row 100, column 200) to the bare pair (200, 100) — heatmap pixel
coordinates with no confidence component — and 200 lies far outside [0, 1],
so the result is not a normalized (x, y, confidence) triple. -/
theorem c7_detect_unnormalized_pairs :
    detectCoordinates [(100, 200)] = [(200, 100)] ∧ ¬ (200 : Nat) ≤ 1 := by
  decide

/-! ## Zoom stability across one assembly (claim C10) -/

theorem fetchTile_fixed_zoom (srv : Server) (z x y : Nat) :
    (fetchTile srv (some z) x y).zoom = some z ∧
    (fetchTile srv (some z) x y).reqs = [(x, y, z)] := by
  simp only [fetchTile, Option.getD_some]
  cases h : srv x y z <;> simp [h]

theorem fetchSeq_fixed (srv : Server) (z : Nat) (cs : List (Nat × Nat)) :
    fetchSeq srv (some z) cs = (some z, cs.map fun c => (c.1, c.2, z)) := by
  induction cs with
  | nil => rfl
  | cons c cs ih =>
    simp [fetchSeq, (fetchTile_fixed_zoom srv z c.1 c.2).1,
      (fetchTile_fixed_zoom srv z c.1 c.2).2, ih]

/-- C10: once a tile fetch has returned a tile and fixed self.zoom — to 4
when the first fetched tile is non-sentinel at zoom 4, and to 3 otherwise,
via the fallback request — every subsequent _fetch_tile call of that
assembly issues exactly one request, at that same zoom, never touches the
fallback, and leaves self.zoom unchanged, so one assembly never mixes
zoom levels after the first success. -/
theorem c10_zoom_fixed_after_success (srv : Server) (z x y : Nat)
    (cs : List (Nat × Nat)) :
    ((fetchTile srv none x y).tile.isSome = true →
      (fetchTile srv none x y).zoom = some 4 ∨
      (fetchTile srv none x y).zoom = some 3) ∧
    (∀ t, srv x y 4 = TileResp.ok t → t.isBlack = false →
      (fetchTile srv none x y).zoom = some 4 ∧
      (fetchTile srv none x y).reqs = [(x, y, 4)]) ∧
    fetchSeq srv (some z) cs = (some z, cs.map fun c => (c.1, c.2, z)) := by
  refine ⟨?_, ?_, fetchSeq_fixed srv z cs⟩
  · intro h
    simp only [fetchTile, fetchTileFallback, Option.getD_none] at *
    cases h4 : srv x y 4 with
    | ok t =>
      cases hb : t.isBlack with
      | false => simp [h4, hb]
      | true =>
        cases h3 : srv x y 3 with
        | ok t3 => simp [h4, hb, h3]
        | err => simp [h4, hb, h3] at h
    | err =>
      cases h3 : srv x y 3 with
      | ok t3 => simp [h4, h3]
      | err => simp [h4, h3] at h
  · intro t ht hb
    simp [fetchTile, ht, hb]

/-- Witness for C10 at a concrete always-populated server. -/
theorem c10_witness :
    (fetchTile okServer none 5 2).tile.isSome = true ∧
    ((fetchTile okServer none 5 2).zoom = some 4 ∨
      (fetchTile okServer none 5 2).zoom = some 3) ∧
    okServer 5 2 4 = TileResp.ok popTile ∧
    popTile.isBlack = false ∧
    (fetchTile okServer none 5 2).zoom = some 4 ∧
    (fetchTile okServer none 5 2).reqs = [(5, 2, 4)] ∧
    fetchSeq okServer (some 4) [(0, 0), (1, 1)] =
      (some 4, [(0, 0), (1, 1)].map fun c => (c.1, c.2, 4)) := by
  have h := c10_zoom_fixed_after_success okServer 4 5 2 [(0, 0), (1, 1)]
  exact ⟨by decide, h.1 (by decide), rfl, by decide,
    (h.2.1 popTile rfl (by decide)).1, (h.2.1 popTile rfl (by decide)).2, h.2.2⟩

/-! ## Sentinel seed tile (claim C3) -/

/-- C3: when the very first probed (seed) tile is the sentinel — all-zero,
or an error on both the primary and the fallback request — discovery
declares the panorama invalid, assembly produces a None image, and the
only coordinate ever probed is the seed (5, 2). -/
theorem c3_seed_sentinel_notfound (srv : Server) (fuel : Nat)
    (h1 : 1 ≤ fuel)
    (h2 : isBlackOpt (fetchTile srv none 5 2).tile = true) :
    (findPanoramaDimensions srv fuel).2 = DiscoResult.invalid ∧
    (fetchPanorama srv fuel).image = none ∧
    (fetchPanorama srv fuel).probes = [(5, 2)] := by
  obtain ⟨n, rfl⟩ : ∃ n, fuel = n + 1 := ⟨fuel - 1, by omega⟩
  have hd : (findPanoramaDimensions srv (n + 1)).2 = DiscoResult.invalid ∧
      (findPanoramaDimensions srv (n + 1)).1.probes = [(5, 2)] := by
    simp only [findPanoramaDimensions, diagWalk]
    cases ht : (fetchTile srv none 5 2).tile with
    | none => simp [ht]
    | some t =>
      have hb : t.isBlack = true := by simpa [ht, isBlackOpt] using h2
      simp [ht, hb]
  refine ⟨hd.1, ?_, ?_⟩ <;>
    simp [fetchPanorama, hd.1, hd.2]

/-- Witness for C3 at a server that always serves the sentinel. -/
theorem c3_witness :
    1 ≤ 1 ∧
    isBlackOpt (fetchTile blackServer none 5 2).tile = true ∧
    (findPanoramaDimensions blackServer 1).2 = DiscoResult.invalid ∧
    (fetchPanorama blackServer 1).image = none ∧
    (fetchPanorama blackServer 1).probes = [(5, 2)] := by
  have h := c3_seed_sentinel_notfound blackServer 1 (by decide) (by decide)
  exact ⟨by decide, by decide, h.1, h.2.1, h.2.2⟩

/-! ## Delivered image resolution (claims C4 and C5) -/

theorem fetchPanorama_dims (srv : Server) (fuel : Nat) (i : Img)
    (h : (fetchPanorama srv fuel).image = some i) :
    i.width = 8192 ∧ i.height = 4096 := by
  simp only [fetchPanorama] at h
  split at h
  · split at h
    · rw [Option.map_eq_some'] at h
      obtain ⟨ci, _, rfl⟩ := h
      exact ⟨rfl, rfl⟩
    · simp at h
  · simp at h

/-- C4 counterexample: for a concrete synthetic tile source the assembled
image handed to the detection adapter measures 8192 by 4096 pixels, not
the 4096 by 2048 the claim states. -/
theorem c4_counterexample :
    ((fetchPanorama (synthServer 5 2) 12).image.map fun i => (i.width, i.height)) =
      some (8192, 4096) ∧
    ((8192, 4096) : Nat × Nat) ≠ (4096, 2048) := by
  exact ⟨by decide, by decide⟩

/-- C4 amended: every successfully assembled panorama is handed to the
detection adapter at the fixed resolution 8192 by 4096, regardless of the
discovered tile-grid size; the adapter itself then resizes its input to
4096 by 2048 before the model sees it. -/
theorem c4_fixed_resolution_amended (srv : Server) (fuel : Nat) :
    ((fetchPanorama srv fuel).image.map fun i => (i.width, i.height)) =
      ((fetchPanorama srv fuel).image.map fun _ => (8192, 4096)) ∧
    ∀ img : Img,
      (detectPreprocess img).width = 4096 ∧ (detectPreprocess img).height = 2048 := by
  refine ⟨?_, fun img => ⟨rfl, rfl⟩⟩
  cases h : (fetchPanorama srv fuel).image with
  | none => rfl
  | some i =>
    obtain ⟨hw, hh⟩ := fetchPanorama_dims srv fuel i h
    simp [hw, hh]

/-- Witness for C4 at a concrete server and fuel. -/
theorem c4_witness :
    ((fetchPanorama okServer 0).image.map fun i => (i.width, i.height)) =
      ((fetchPanorama okServer 0).image.map fun _ => (8192, 4096)) ∧
    (detectPreprocess wideImg).width = 4096 ∧
    (detectPreprocess wideImg).height = 2048 :=
  ⟨(c4_fixed_resolution_amended okServer 0).1,
   (c4_fixed_resolution_amended okServer 0).2 wideImg⟩

/-- C5 counterexample: a concrete canvas whose nonzero bounding box is 9
wide and 2 high — wider than twice its height — leaves the crop step at the
full width 9, not clipped to the exact 2:1 width 4. -/
theorem c5_counterexample :
    ((crop wideImg).map fun i => (i.width, i.height)) = some (9, 2) ∧
    2 * 2 < 9 ∧ (9 : Nat) ≠ 2 * 2 := by
  exact ⟨by decide, by decide, by decide⟩

/-! ## Boundary discovery on the synthetic source (claim C2) -/

theorem zeroTile_isBlack : zeroTile.isBlack = true := by decide

theorem popTile_isBlack : popTile.isBlack = false := by decide

theorem synth_fetchTile_tile (Xmax Ymax : Nat) (z : Option Nat) (x y : Nat) :
    (fetchTile (synthServer Xmax Ymax) z x y).tile =
      some (if Xmax < x ∨ Ymax < y then zeroTile else popTile) := by
  by_cases hc : Xmax < x ∨ Ymax < y <;> cases z <;>
    simp [fetchTile, fetchTileFallback, synthServer, hc,
      zeroTile_isBlack, popTile_isBlack]

theorem synth_innerSweep (Xmax Ymax y : Nat) (hy : y ≤ Ymax) :
    ∀ fuel x, x ≤ Xmax + 1 → Xmax + 2 ≤ fuel + x →
      ∀ st : DiscoState,
      (innerSweep (synthServer Xmax Ymax) fuel st x y).2 =
        DiscoResult.found Xmax y := by
  intro fuel
  induction fuel with
  | zero => intro x hx hf st; omega
  | succ n ih =>
    intro x hx hf st
    rw [innerSweep]
    by_cases hxm : Xmax < x
    · have hx1 : x = Xmax + 1 := by omega
      subst hx1
      simp [synth_fetchTile_tile, isBlackOpt, hxm, zeroTile_isBlack]
    · have hc : ¬ (Xmax < x ∨ Ymax < y) := by omega
      simp only [synth_fetchTile_tile, hc, if_false, isBlackOpt,
        popTile_isBlack, Bool.false_eq_true, if_neg]
      exact ih (x + 1) (by omega) (by omega) _

theorem synth_diagWalk (Xmax Ymax : Nat) (hX : 5 ≤ Xmax) (_hY : 2 ≤ Ymax) :
    ∀ fuel y isf, 2 ≤ y → y ≤ min Ymax (Xmax - 3) + 1 →
      (isf = true → y ≤ min Ymax (Xmax - 3)) →
      min Ymax (Xmax - 3) + 1 - y + (Xmax - min Ymax (Xmax - 3) - 1) ≤ fuel →
      ∀ st : DiscoState,
      (diagWalk (synthServer Xmax Ymax) fuel st (y + 3) y isf).2 =
        DiscoResult.found Xmax (min Ymax (Xmax - 3)) := by
  intro fuel
  induction fuel with
  | zero => intro y isf h2 hy1 hisf hf st; omega
  | succ n ih =>
    intro y isf h2 hy1 hisf hf st
    rw [diagWalk]
    by_cases hym : y ≤ min Ymax (Xmax - 3)
    · have hc : ¬ (Xmax < y + 3 ∨ Ymax < y) := by omega
      have e : y + 3 + 1 = (y + 1) + 3 := by omega
      simp only [synth_fetchTile_tile, if_neg hc, popTile_isBlack,
        Bool.and_false, Bool.false_eq_true, ite_false, e]
      exact ih (y + 1) false (by omega) (by omega) (by simp) (by omega) _
    · have hyv : y = min Ymax (Xmax - 3) + 1 := by omega
      have hc : Xmax < y + 3 ∨ Ymax < y := by omega
      have hisf' : isf = false := by
        cases isf
        · rfl
        · exact absurd (hisf rfl) (by omega)
      subst hisf'
      simp only [synth_fetchTile_tile, if_pos hc, zeroTile_isBlack,
        Bool.false_and, Bool.and_true, Bool.false_eq_true, ite_false, if_true]
      have hy1' : y - 1 = min Ymax (Xmax - 3) := by omega
      rw [hy1']
      exact synth_innerSweep Xmax Ymax _ (by omega) n (y + 3) (by omega) (by omega) _

/-- C2 counterexample: with the synthetic source bounded by Xmax = 5 and
Ymax = 3 the seed tile is populated, so discovery does not declare the
panorama invalid, yet it returns (5, 2) — not (Xmax, Ymax) = (5, 3): the
diagonal walk exits on the column bound and mis-reports the maximum row. -/
theorem c2_counterexample :
    (findPanoramaDimensions (synthServer 5 3) 40).2 = DiscoResult.found 5 2 ∧
    (findPanoramaDimensions (synthServer 5 3) 40).2 ≠ DiscoResult.invalid ∧
    DiscoResult.found 5 2 ≠ DiscoResult.found 5 3 := by
  exact ⟨by decide, by decide, by decide⟩

/-- C2 amended: on a tile source that is sentinel exactly when the column
exceeds Xmax or the row exceeds Ymax (and populated otherwise), discovery
with enough fuel terminates and returns the column bound together with
min Ymax (Xmax - 3): the true (Xmax, Ymax) exactly when Ymax + 3 ≤ Xmax,
and (Xmax, Xmax - 3) otherwise. Discovery declares the panorama valid
whenever 5 ≤ Xmax and 2 ≤ Ymax (the seed is populated). -/
theorem c2_discovery_dimensions_amended (Xmax Ymax fuel : Nat)
    (hX : 5 ≤ Xmax) (hY : 2 ≤ Ymax) (hf : Xmax ≤ fuel) :
    (findPanoramaDimensions (synthServer Xmax Ymax) fuel).2 =
      DiscoResult.found Xmax (min Ymax (Xmax - 3)) := by
  have h := synth_diagWalk Xmax Ymax hX hY fuel 2 true (by omega) (by omega)
    (fun _ => by omega) (by omega) ⟨none, [], [], []⟩
  simpa [findPanoramaDimensions] using h

/-- Witness for C2 at Xmax = 7, Ymax = 2 and fuel 7. -/
theorem c2_witness :
    5 ≤ 7 ∧ 2 ≤ 2 ∧ 7 ≤ 7 ∧
    (findPanoramaDimensions (synthServer 7 2) 7).2 =
      DiscoResult.found 7 (min 2 (7 - 3)) :=
  ⟨by decide, by decide, by decide,
   c2_discovery_dimensions_amended 7 2 7 (by decide) (by decide) (by decide)⟩

/-- C5 amended: the crop step performs no aspect clamping of any kind; the
exact 2:1 aspect of the delivered image is imposed solely by the
unconditional resize to 8192 by 4096, whose output always satisfies
width = 2 * height. -/
theorem c5_no_crop_clamp_amended (srv : Server) (fuel : Nat) (img : Img) :
    (resizeImg img 8192 4096).width = 2 * (resizeImg img 8192 4096).height ∧
    ((fetchPanorama srv fuel).image.map fun i => (i.width, 2 * i.height)) =
      ((fetchPanorama srv fuel).image.map fun i => (i.width, i.width)) := by
  constructor
  · show (8192 : Nat) = 2 * 4096
    norm_num
  · cases h : (fetchPanorama srv fuel).image with
    | none => rfl
    | some i =>
      obtain ⟨hw, hh⟩ := fetchPanorama_dims srv fuel i h
      simp [hw, hh]

/-- Witness for C5 at a concrete server, fuel and image. -/
theorem c5_witness :
    (resizeImg wideImg 8192 4096).width = 2 * (resizeImg wideImg 8192 4096).height ∧
    ((fetchPanorama okServer 0).image.map fun i => (i.width, 2 * i.height)) =
      ((fetchPanorama okServer 0).image.map fun i => (i.width, i.width)) :=
  ⟨(c5_no_crop_clamp_amended okServer 0 wideImg).1,
   (c5_no_crop_clamp_amended okServer 0 wideImg).2⟩

/-! ## Partial bulk-fetch failures (claim C6) -/

theorem fetchTile_tile_ok (srv : Server) (z : Option Nat) (x y : Nat) (t : RasterTile)
    (h : (fetchTile srv z x y).tile = some t) :
    ∃ a b c, srv a b c = TileResp.ok t := by
  simp only [fetchTile] at h
  split at h
  next t0 h4 =>
    split at h
    · simp only [Option.some.injEq] at h
      subst h
      exact ⟨x, y, z.getD 4, h4⟩
    · simp only [fetchTileFallback] at h
      split at h
      next t3 h3 =>
        simp only [Option.some.injEq] at h
        subst h
        exact ⟨x, y, 3, h3⟩
      next => simp at h
  next h4 =>
    split at h
    · simp at h
    · simp only [fetchTileFallback] at h
      split at h
      next t3 h3 =>
        simp only [Option.some.injEq] at h
        subst h
        exact ⟨x, y, 3, h3⟩
      next => simp at h

theorem fetchRemainingGo_spec (srv : Server) (z : Option Nat) (cells : List (Nat × Nat)) :
    ∀ acc ps, ∃ extra : TileCache,
      (fetchRemainingGo srv z cells acc ps).1 = acc ++ extra ∧
      ∀ p ∈ extra, ∃ t, p.2 = some t ∧ ∃ a b c, srv a b c = TileResp.ok t := by
  induction cells with
  | nil =>
    intro acc ps
    exact ⟨[], by simp [fetchRemainingGo], by simp⟩
  | cons c cs ih =>
    intro acc ps
    rw [fetchRemainingGo]
    split
    · exact ih acc ps
    · cases ht : (fetchTile srv z c.1 c.2).tile with
      | some t =>
        simp only [ht]
        obtain ⟨extra, h1, h2⟩ := ih (acc ++ [(c, some t)]) (ps ++ [c])
        refine ⟨(c, some t) :: extra, by simpa using h1, ?_⟩
        intro p hp
        rcases List.mem_cons.mp hp with rfl | hp
        · exact ⟨t, rfl, fetchTile_tile_ok srv z c.1 c.2 t ht⟩
        · exact h2 p hp
      | none =>
        simp only [ht]
        exact ih acc (ps ++ [c])

theorem pasteAll_dims (ts : Nat) (tiles : TileCache) :
    ∀ cv : Img, (pasteAll ts tiles cv).width = cv.width ∧
      (pasteAll ts tiles cv).height = cv.height := by
  induction tiles with
  | nil => intro cv; exact ⟨rfl, rfl⟩
  | cons p rest ih =>
    intro cv
    rw [pasteAll]
    rcases p with ⟨k, v⟩
    cases v with
    | none => exact ih cv
    | some t => exact ih (pasteTile cv t (k.1 * ts) (k.2 * ts))

theorem pasteAll_pix_zero (ts : Nat) (px py : Nat) (tiles : TileCache)
    (hsz : ∀ p ∈ tiles, ∀ t, p.2 = some t → t.size = ts)
    (hmiss : ∀ p ∈ tiles, p.1 ≠ (px / ts, py / ts)) :
    ∀ cv : Img, cv.pix px py = 0 → (pasteAll ts tiles cv).pix px py = 0 := by
  induction tiles with
  | nil => intro cv h; simpa [pasteAll] using h
  | cons p rest ih =>
    intro cv h
    rw [pasteAll]
    rcases p with ⟨⟨a, b⟩, v⟩
    have hsz' := hsz ⟨(a, b), v⟩ (List.mem_cons_self _ _)
    have hmiss' := hmiss ⟨(a, b), v⟩ (List.mem_cons_self _ _)
    have ihr := ih
      (fun q hq => hsz q (List.mem_cons_of_mem _ hq))
      (fun q hq => hmiss q (List.mem_cons_of_mem _ hq))
    cases v with
    | none => exact ihr cv h
    | some t =>
      apply ihr
      have hts : t.size = ts := hsz' t rfl
      simp only [pasteTile]
      split
      next hcov =>
        exfalso
        obtain ⟨h1, h2, h3, h4⟩ := hcov
        rw [hts] at h2 h4
        have hxa : px / ts = a := by
          refine Nat.div_eq_of_lt_le (by linarith [h1]) ?_
          calc px < a * ts + ts := h2
          _ = (a + 1) * ts := by ring
        have hyb : py / ts = b := by
          refine Nat.div_eq_of_lt_le (by linarith [h3]) ?_
          calc py < b * ts + ts := h4
          _ = (b + 1) * ts := by ring
        exact hmiss' (by simp [hxa, hyb])
      next => exact h

/-- C6: when boundary discovery succeeded (a non-empty discovery cache
whose tiles all decoded, with the uniform tile size ts), assembly after the
bulk fetch always yields a canvas of the full grid size
ts*(max_x+1) by ts*(max_y+1) — whatever subset of the remaining tiles the
server failed to serve — and every pixel of a grid cell missing from the
tile map (a failed fetch) is left blank (zero), rather than the assembly
raising or returning a failure outcome. -/
theorem c6_partial_fetch_failures_tolerated (srv : Server) (z : Option Nat)
    (mx my ts : Nat) (existing : TileCache)
    (hne : existing ≠ [])
    (hex : ∀ p ∈ existing, ∃ t, p.2 = some t ∧ t.size = ts)
    (hsrv : ∀ a b c t, srv a b c = TileResp.ok t → t.size = ts) :
    ((assemblePanorama (fetchRemainingTiles srv z mx my existing).1 mx my).map
        fun cv => (cv.width, cv.height)) = some (ts * (mx + 1), ts * (my + 1)) ∧
    ∀ px py,
      ((fetchRemainingTiles srv z mx my existing).1.any
          fun p => p.1 = (px / ts, py / ts)) = false →
      ((assemblePanorama (fetchRemainingTiles srv z mx my existing).1 mx my).map
          fun cv => cv.pix px py) = some 0 := by
  obtain ⟨e0, ex', rfl⟩ : ∃ e0 ex', existing = e0 :: ex' := by
    cases existing with
    | nil => exact absurd rfl hne
    | cons a l => exact ⟨a, l, rfl⟩
  rcases e0 with ⟨k0, v0⟩
  obtain ⟨t0, hv0, ht0⟩ := hex ⟨k0, v0⟩ (List.mem_cons_self _ _)
  have hv0' : v0 = some t0 := hv0
  subst hv0'
  obtain ⟨extra, hfull, hextra⟩ :=
    fetchRemainingGo_spec srv z (gridCells mx my) ((k0, some t0) :: ex') []
  simp only [fetchRemainingTiles]
  have hvals : ∀ p ∈ (fetchRemainingGo srv z (gridCells mx my)
      ((k0, some t0) :: ex') []).1, ∃ t, p.2 = some t ∧ t.size = ts := by
    rw [hfull]
    intro p hp
    rcases List.mem_append.mp hp with hp | hp
    · exact hex p hp
    · obtain ⟨t, h1, a, b, c, h2⟩ := hextra p hp
      exact ⟨t, h1, hsrv a b c t h2⟩
  have hnone : ((fetchRemainingGo srv z (gridCells mx my)
      ((k0, some t0) :: ex') []).1.any fun p => p.2.isNone) = false := by
    rw [List.any_eq_false]
    intro p hp
    obtain ⟨t, h1, _⟩ := hvals p hp
    simp [h1]
  have hshape : (fetchRemainingGo srv z (gridCells mx my)
      ((k0, some t0) :: ex') []).1 = (k0, some t0) :: (ex' ++ extra) := by
    rw [hfull]
    simp
  have hassemble : assemblePanorama
      (fetchRemainingGo srv z (gridCells mx my) ((k0, some t0) :: ex') []).1 mx my =
      some (pasteAll t0.size
        ((k0, some t0) :: (ex' ++ extra))
        ⟨t0.size * (mx + 1), t0.size * (my + 1), fun _ _ => 0⟩) := by
    rw [hshape] at hnone ⊢
    rw [assemblePanorama]
    simp only [hnone, Bool.false_eq_true, if_false]
  constructor
  · rw [hassemble]
    have hd := pasteAll_dims t0.size ((k0, some t0) :: (ex' ++ extra))
      ⟨t0.size * (mx + 1), t0.size * (my + 1), fun _ _ => 0⟩
    simp only [Option.map_some', Option.some.injEq, Prod.mk.injEq]
    refine ⟨?_, ?_⟩
    · rw [hd.1]
      simp [ht0]
    · rw [hd.2]
      simp [ht0]
  · intro px py hmiss
    rw [hassemble]
    simp only [Option.map_some', Option.some.injEq]
    apply pasteAll_pix_zero
    · intro p hp t hpt
      rw [← hshape] at hp
      obtain ⟨t', h1, h2⟩ := hvals p hp
      rw [hpt] at h1
      cases h1
      rw [h2, ht0]
    · rw [hshape] at hmiss
      rw [List.any_eq_false] at hmiss
      intro p hp hpk
      rw [ht0] at hpk
      exact hmiss p hp (by simp [hpk])
    · rfl

/-- Witness for C6: discovery produced the single cached seed tile at cell
(0, 0); the server fails exactly at cell (1, 1) of the 2 by 2 grid; the
canvas still comes out full-size with the failed cell blank. -/
theorem c6_witness :
    ([((0, 0), some popTile)] : TileCache) ≠ [] ∧
    ((assemblePanorama (fetchRemainingTiles failServer (some 4) 1 1
        [((0, 0), some popTile)]).1 1 1).map
      fun cv => (cv.width, cv.height)) = some (1 * (1 + 1), 1 * (1 + 1)) ∧
    ((fetchRemainingTiles failServer (some 4) 1 1
        [((0, 0), some popTile)]).1.any
      fun p => p.1 = (1 / 1, 1 / 1)) = false ∧
    ((assemblePanorama (fetchRemainingTiles failServer (some 4) 1 1
        [((0, 0), some popTile)]).1 1 1).map
      fun cv => cv.pix 1 1) = some 0 := by
  have hex : ∀ p ∈ ([((0, 0), some popTile)] : TileCache),
      ∃ t, p.2 = some t ∧ t.size = 1 := by
    intro p hp
    simp only [List.mem_singleton] at hp
    subst hp
    exact ⟨popTile, rfl, rfl⟩
  have hsrv : ∀ a b c t, failServer a b c = TileResp.ok t → t.size = 1 := by
    intro a b c t h
    simp only [failServer] at h
    split at h
    · exact absurd h (by simp)
    · cases h
      rfl
  have h := c6_partial_fetch_failures_tolerated failServer (some 4) 1 1 1
    [((0, 0), some popTile)] (by simp) hex hsrv
  exact ⟨by simp, h.1, by decide, h.2 1 1 (by decide)⟩

/-! ## Canonical geometry digest (claim C9) -/

theorem keyLE_trans : ∀ a b c : String × String,
    keyLE a b → keyLE b c → keyLE a c := by
  intro a b c hab hbc
  simp only [keyLE, decide_eq_true_eq] at *
  exact le_trans hab hbc

theorem keyLE_total : ∀ a b : String × String, keyLE a b || keyLE b a := by
  intro a b
  simp only [keyLE]
  rcases le_total a.1 b.1 with h | h <;> simp [h]

theorem pairwise_key_lt_eq_of_perm {α : Type} :
    ∀ (l1 l2 : List (String × α)), l1.Pairwise (fun a b => a.1 < b.1) →
      l2.Pairwise (fun a b => a.1 < b.1) → l1.Perm l2 → l1 = l2 := by
  intro l1
  induction l1 with
  | nil =>
    intro l2 _ _ hp
    exact hp.nil_eq
  | cons a l1 ih =>
    intro l2 h1 h2 hp
    cases l2 with
    | nil => exact absurd hp.symm.nil_eq (by simp)
    | cons b l2 =>
      have hab : a = b := by
        rcases List.mem_cons.mp (hp.mem_iff.mp (List.mem_cons_self a l1)) with h | hin
        · exact h
        · have hba : b.1 < a.1 := (List.pairwise_cons.mp h2).1 a hin
          rcases List.mem_cons.mp (hp.mem_iff.mpr (List.mem_cons_self b l2)) with h' | hbin
          · rw [h'] at hba
            exact absurd hba (lt_irrefl _)
          · have hab' : a.1 < b.1 := (List.pairwise_cons.mp h1).1 b hbin
            exact absurd hba (lt_asymm hab')
      subst hab
      rw [ih l2 (List.pairwise_cons.mp h1).2 (List.pairwise_cons.mp h2).2 hp.cons_inv]

theorem mergeSort_perm_nodup_eq (l1 l2 : List (String × String))
    (hn : (l1.map Prod.fst).Nodup) (hp : l1.Perm l2) :
    List.mergeSort l1 keyLE = List.mergeSort l2 keyLE := by
  have hn2 : (l2.map Prod.fst).Nodup := ((hp.map Prod.fst).nodup_iff).mp hn
  have key_lt : ∀ (l : List (String × String)), (l.map Prod.fst).Nodup →
      (List.mergeSort l keyLE).Pairwise fun a b => a.1 < b.1 := by
    intro l hnd
    have hs := List.sorted_mergeSort keyLE_trans keyLE_total l
    have hnd' : ((List.mergeSort l keyLE).map Prod.fst).Nodup :=
      (((List.mergeSort_perm l keyLE).map Prod.fst).nodup_iff).mpr hnd
    have hne : (List.mergeSort l keyLE).Pairwise fun a b => a.1 ≠ b.1 :=
      (List.pairwise_map).mp hnd'
    refine (hs.and hne).imp ?_
    intro a b hab
    have hle : a.1 ≤ b.1 := by
      have := hab.1
      simp only [keyLE, decide_eq_true_eq] at this
      exact this
    exact lt_of_le_of_ne hle hab.2
  refine pairwise_key_lt_eq_of_perm _ _ (key_lt l1 hn) (key_lt l2 hn2) ?_
  exact (List.mergeSort_perm l1 keyLE).trans (hp.trans (List.mergeSort_perm l2 keyLE).symm)

theorem jsonMembersDumps_map (m : List (String × Json)) :
    jsonMembersDumps m = m.map fun kv => (kv.1, jsonDumps kv.2) := by
  induction m with
  | nil => rfl
  | cons kv t ih =>
    rcases kv with ⟨k, v⟩
    simp [jsonMembersDumps, ih]

theorem jsonListDumps_congr : ∀ l1 l2 : List Json, JsonListEquiv l1 l2 →
    (∀ j ∈ l1, ∀ j2, jsonWF j = true → JsonEquiv j j2 → jsonDumps j = jsonDumps j2) →
    jsonListWF l1 = true →
    jsonListDumps l1 = jsonListDumps l2 := by
  intro l1
  induction l1 with
  | nil =>
    intro l2 heq _ _
    cases heq
    rfl
  | cons a t1 ihl =>
    intro l2 heq hrec hwf
    cases heq with
    | cons _ b _ t2 hab ht =>
      simp only [jsonListWF, Bool.and_eq_true] at hwf
      simp only [jsonListDumps]
      rw [hrec a (List.mem_cons_self _ _) b hwf.1 hab,
        ihl t2 ht (fun j hj => hrec j (List.mem_cons_of_mem _ hj)) hwf.2]

theorem jsonMembersDumps_congr : ∀ m1 m2 : List (String × Json), JsonMembersEquiv m1 m2 →
    (∀ kv ∈ m1, ∀ j2, jsonWF kv.2 = true → JsonEquiv kv.2 j2 → jsonDumps kv.2 = jsonDumps j2) →
    jsonMembersWF m1 = true →
    jsonMembersDumps m1 = jsonMembersDumps m2 := by
  intro m1
  induction m1 with
  | nil =>
    intro m2 heq _ _
    cases heq
    rfl
  | cons kv t1 ihm =>
    rcases kv with ⟨k, v⟩
    intro m2 heq hrec hwf
    cases heq with
    | cons _ _ v2 _ mm2 hv hm =>
      simp only [jsonMembersWF, Bool.and_eq_true] at hwf
      simp only [jsonMembersDumps]
      rw [hrec (k, v) (List.mem_cons_self _ _) v2 hwf.1 hv,
        ihm mm2 hm (fun q hq => hrec q (List.mem_cons_of_mem _ hq)) hwf.2]

theorem jsonDumps_equiv_aux : ∀ n : Nat, ∀ j1 : Json, sizeOf j1 ≤ n → ∀ j2,
    jsonWF j1 = true → JsonEquiv j1 j2 → jsonDumps j1 = jsonDumps j2 := by
  intro n
  induction n with
  | zero =>
    intro j1 hsz
    exfalso
    cases j1 <;> simp at hsz
  | succ n ih =>
    intro j1 hsz j2 hwf heq
    cases heq with
    | null => rfl
    | bool b => rfl
    | num l => rfl
    | str s => rfl
    | arr l1 l2 hl =>
      have hs1 : sizeOf l1 ≤ n := by
        have hspec : sizeOf (Json.arr l1) = 1 + sizeOf l1 := by simp
        omega
      have hrec : ∀ j ∈ l1, ∀ j2, jsonWF j = true → JsonEquiv j j2 →
          jsonDumps j = jsonDumps j2 := by
        intro j hj j2' hwf' heq'
        have hlt : sizeOf j < sizeOf l1 := List.sizeOf_lt_of_mem hj
        exact ih j (by omega) j2' hwf' heq'
      have hwfl : jsonListWF l1 = true := by simpa [jsonWF] using hwf
      have h := jsonListDumps_congr l1 l2 hl hrec hwfl
      simp [jsonDumps, h]
    | obj m1 mid m2 hm hperm =>
      have hs1 : sizeOf m1 ≤ n := by
        have hspec : sizeOf (Json.obj m1) = 1 + sizeOf m1 := by simp
        omega
      have hrec : ∀ kv ∈ m1, ∀ j2, jsonWF kv.2 = true → JsonEquiv kv.2 j2 →
          jsonDumps kv.2 = jsonDumps j2 := by
        intro kv hkv j2' hwf' heq'
        have h1 : sizeOf kv < sizeOf m1 := List.sizeOf_lt_of_mem hkv
        have h2 : sizeOf kv.2 < sizeOf kv := by
          rcases kv with ⟨k, v⟩
          simp
        exact ih kv.2 (by omega) j2' hwf' heq'
      simp only [jsonWF, Bool.and_eq_true, decide_eq_true_eq] at hwf
      have hmd : jsonMembersDumps m1 = jsonMembersDumps mid :=
        jsonMembersDumps_congr m1 mid hm hrec hwf.2
      have hkeys : ((jsonMembersDumps m1).map Prod.fst).Nodup := by
        rw [jsonMembersDumps_map, List.map_map]
        exact hwf.1
      have hpd : (jsonMembersDumps mid).Perm (jsonMembersDumps m2) := by
        rw [jsonMembersDumps_map, jsonMembersDumps_map]
        exact hperm.map _
      have hsort : List.mergeSort (jsonMembersDumps m1) keyLE =
          List.mergeSort (jsonMembersDumps m2) keyLE :=
        mergeSort_perm_nodup_eq _ _ hkeys (hmd ▸ hpd)
      simp [jsonDumps, hsort]

theorem jsonDumps_equiv (j1 j2 : Json) (hwf : jsonWF j1 = true)
    (heq : JsonEquiv j1 j2) : jsonDumps j1 = jsonDumps j2 :=
  jsonDumps_equiv_aux (sizeOf j1) j1 le_rfl j2 hwf heq

/-- C9: two parsed GeoJSON geometry values that are equal as JSON objects —
members permuted at any object level; incidental whitespace is already
discarded by parsing — canonicalize to the same compact sorted-key string,
so the area digest (SHA-256 of the canonical serialization, and indeed the
digest under any hash function applied to it) is identical and both
serializations map to the same ledger namespace. -/
theorem c9_area_digest_canonical (g1 g2 : Json) (sha256hex : String → String)
    (hwf : jsonWF g1 = true) (heq : JsonEquiv g1 g2) :
    getGeojsonHash sha256hex g1 = getGeojsonHash sha256hex g2 := by
  unfold getGeojsonHash
  rw [jsonDumps_equiv g1 g2 hwf heq]

/-- Witness for C9 at a two-member object with scrambled key order. -/
theorem c9_witness :
    jsonWF (Json.obj [("a", Json.num "1"), ("b", Json.null)]) = true ∧
    getGeojsonHash (fun s => s) (Json.obj [("a", Json.num "1"), ("b", Json.null)]) =
      getGeojsonHash (fun s => s) (Json.obj [("b", Json.null), ("a", Json.num "1")]) := by
  have hwf : jsonWF (Json.obj [("a", Json.num "1"), ("b", Json.null)]) = true := by
    simp [jsonWF, jsonMembersWF]
  refine ⟨hwf, ?_⟩
  apply c9_area_digest_canonical _ _ _ hwf
  exact JsonEquiv.obj _ _ _
    (JsonMembersEquiv.cons "a" (Json.num "1") (Json.num "1") _ _
      (JsonEquiv.num "1")
      (JsonMembersEquiv.cons "b" Json.null Json.null _ _
        JsonEquiv.null JsonMembersEquiv.nil))
    (List.Perm.swap _ _ _)

end Sidewalk
